import Mathlib

/-!
Shallow embedding of the multiplayer chess session server (`server.py`).

Conventions of the embedding:
* Wall-clock instants and remaining clock times are rationals (`ℚ`), standing for
  the Python floats returned by `time.time()`; only comparisons, subtraction and
  `max` are used, where float and exact arithmetic agree on the properties below.
* The external rules engine (the `chess` library) is an opaque collaborator: a
  `Rules` record of the exact operations `make_move` calls on it
  (`Move.from_uci`, `legal_moves` membership, `push`, `is_checkmate`,
  `is_stalemate`, `is_insufficient_material`, plus the initial board).
* The external store (`db` module) is fire-and-forget: every `db.*` function
  catches its own exceptions (see `db.py`), so the store calls in `server.py`
  have no effect on in-memory state and are dropped from the embedding.
* Python dicts (`users`, `active_games`) are association lists preserving
  insertion order; `clients`/sockets are `Nat` connection ids; the state of a
  websocket is a `ConnState` (its `open` attribute plus the outcome its `send`
  coroutine would have); exceptions of a send are modelled with `Except`.
-/

deriving instance DecidableEq for Except

/-- Error raised by a raw websocket send: `websockets.exceptions.ConnectionClosed`
or any other exception. -/
inductive SendErr : Type
  | connClosed : SendErr
  | other : SendErr
deriving DecidableEq, Repr

/-- The observable state of one websocket connection: its `open` attribute and
the outcome of attempting `websocket.send` on it. -/
structure ConnState : Type where
  isOpen : Bool
  sendResult : Except SendErr Unit
deriving Repr

/-- `websocket.send`: the one primitive of a connection that can raise. -/
def ws_send (c : ConnState) : Except SendErr Unit :=
  c.sendResult

/-- `send_json` (server.py lines 29-42): tries `if websocket.open: await
websocket.send(...); return True / else return False`, and its `except` arms
catch `ConnectionClosed` and every other `Exception`, returning `False`.
Its result type records that a Python coroutine could in principle propagate an
exception; the theorems below show it never does. -/
def send_json (c : ConnState) : Except SendErr Bool :=
  match (if c.isOpen then do ws_send c; pure true else pure false :
      Except SendErr Bool) with
  | Except.ok b => Except.ok b
  | Except.error _ => Except.ok false

/-- The boolean value `send_json` returns (it always returns, never raises). -/
def send_ok (c : ConnState) : Bool :=
  if c.isOpen then
    match c.sendResult with
    | Except.ok _ => true
    | Except.error _ => false
  else false

theorem send_json_eq_ok (c : ConnState) : send_json c = Except.ok (send_ok c) := by
  rcases c with ⟨o, r⟩
  cases o <;> cases r <;> rfl

/-- A chat entry appended by `handle_chat` (sender, message, timestamp). -/
structure ChatMsg : Type where
  sender : String
  message : String
  timestamp : ℚ
deriving DecidableEq, Repr

/-- The contract of the external rules engine (`python-chess`), exactly the
operations `ChessGame` invokes on it. `fromUci` returns `none` when
`chess.Move.from_uci` raises, and `fromUciErr` is the `str(e)` text of that
exception. -/
structure Rules (B M : Type) : Type where
  initBoard : B
  fromUci : String → Option M
  fromUciErr : String → String
  isLegal : B → M → Bool
  is_checkmate : B → Bool
  is_stalemate : B → Bool
  is_insufficient_material : B → Bool
  push : B → M → B

/-- `ChessGame` (server.py lines 129-146), fields in source order.  `spectators`
is a Python `set` of websockets, modelled as a duplicate-free list of connection
ids (the embedded operations only ever iterate it and `remove` from it). -/
structure ChessGame (B : Type) : Type where
  id : String
  white_player : String
  black_player : String
  board : B
  current_turn : String
  spectators : List Nat
  chat_history : List ChatMsg
  move_history : List String
  white_time : ℚ
  black_time : ℚ
  last_move_time : ℚ
  status : String
deriving DecidableEq, Repr

/-- `ChessGame.__init__` (server.py lines 130-146): `gid` is the fresh
`uuid.uuid4()` and `now` the `time.time()` at construction; the board is the
rules engine's initial position (`chess.Board()`). -/
def newGame {B : Type} (white_player black_player : String) (b0 : B) (now : ℚ)
    (gid : String) : ChessGame B :=
  { id := gid
    white_player := white_player
    black_player := black_player
    board := b0
    current_turn := "white"
    spectators := []
    chat_history := []
    move_history := []
    white_time := 600
    black_time := 600
    last_move_time := now
    status := "ongoing" }

/-- `ChessGame.make_move` (server.py lines 163-207).  Returns the updated game
together with the `(success, message)` pair of the source.  The `db` calls are
dropped (they never raise, see `db.py`); the `except` arm of the source fires
exactly when `chess.Move.from_uci` raises, i.e. when `fromUci` is `none`. -/
def make_move {B M : Type} (R : Rules B M) (now : ℚ) (g : ChessGame B)
    (move_uci : String) : ChessGame B × Bool × String :=
  match R.fromUci move_uci with
  | none => (g, false, R.fromUciErr move_uci)
  | some move =>
    if R.isLegal g.board move then
      let board1 := R.push g.board move
      let turn1 := if g.current_turn = "white" then "black" else "white"
      let status1 :=
        if R.is_checkmate board1 then
          (if turn1 = "black" then "white_wins" else "black_wins")
        else if R.is_stalemate board1 || R.is_insufficient_material board1 then
          "draw"
        else g.status
      ({ g with
          board := board1
          move_history := g.move_history ++ [move_uci]
          current_turn := turn1
          last_move_time := now
          status := status1 }, true, "Move successful")
    else (g, false, "Illegal move")

/-- `handle_move` (server.py lines 373-394), from the turn check on (the caller
has already resolved the player's game and color).  Returns the resulting game
and the error message sent back to the submitter, if any. -/
def handle_move {B M : Type} (R : Rules B M) (now : ℚ) (g : ChessGame B)
    (color : String) (move_uci : String) : ChessGame B × Option String :=
  if (color = "white" ∧ g.current_turn ≠ "white") ∨
      (color = "black" ∧ g.current_turn ≠ "black") then
    (g, some "Not your turn")
  else
    match make_move R now g move_uci with
    | (g1, true, _) => (g1, none)
    | (g1, false, msg) => (g1, some msg)

/-- One entry of the global `users` dict: `{"username": ..., "websocket": ...}`
plus the optional `game_id`/`color` keys set by `find_match`. -/
structure UserRec : Type where
  username : String
  ws : Nat
  game_id : Option String
  color : Option String
deriving DecidableEq, Repr

/-- Python dict assignment `d[k] = v` on an insertion-ordered dict modelled as
an association list: replace the binding in place, or append a fresh one. -/
def setUser (us : List (String × UserRec)) (k : String) (v : UserRec) :
    List (String × UserRec) :=
  if us.any (fun p => p.1 == k) then
    us.map (fun p => if p.1 = k then (k, v) else p)
  else
    us ++ [(k, v)]

/-- `white_player_ids` as computed in `broadcast_game_state` (server.py lines
503): all users bound to this game as white, in dict order. -/
def whitePlayerIds (us : List (String × UserRec)) (gid : String) : List String :=
  (us.filter (fun p => p.2.game_id == some gid && p.2.color == some "white")).map
    (fun p => p.1)

/-- `black_player_ids` (server.py line 504). -/
def blackPlayerIds (us : List (String × UserRec)) (gid : String) : List String :=
  (us.filter (fun p => p.2.game_id == some gid && p.2.color == some "black")).map
    (fun p => p.1)

/-- The disconnect auto-end block at the top of `broadcast_game_state`
(server.py lines 506-516): if either side has no bound user, and more than 30
seconds have passed since `last_move_time`, and the game is still ongoing, the
absent side forfeits.  `now` is the `time.time()` of this check. -/
def disconnect_check {B : Type} (us : List (String × UserRec)) (now : ℚ)
    (g : ChessGame B) : ChessGame B :=
  if (whitePlayerIds us g.id).isEmpty || (blackPlayerIds us g.id).isEmpty then
    if now - g.last_move_time > 30 ∧ g.status = "ongoing" then
      if (whitePlayerIds us g.id).isEmpty then
        { g with status := "black_wins_disconnect" }
      else if (blackPlayerIds us g.id).isEmpty then
        { g with status := "white_wins_disconnect" }
      else g
    else g
  else g

/-- The guarded send to one side-holder in `broadcast_game_state` (lines
518-540): look up the first bound player id, send, and catch every exception
(the handlers only print).  `send_json` itself never raises, so the catch arms
are dead; they are kept to mirror the source. -/
def try_send_player (us : List (String × UserRec)) (connOf : Nat → ConnState)
    (ids : List String) : Except SendErr Unit :=
  match ids with
  | [] => Except.ok ()
  | pid :: _ =>
    match us.lookup pid with
    | some u =>
      match send_json (connOf u.ws) with
      | Except.ok _ => Except.ok ()
      | Except.error _ => Except.ok ()
    | none => Except.ok ()

/-- The spectator fan-out loop of `broadcast_game_state` (lines 543-552): send
to every spectator, collecting into `disconnected_spectators` those whose send
*raised*.  `send_json` catches its own exceptions and returns `False` instead
of raising, so the `Except.error` arms — the source's `except` clauses — never
fire. -/
def collect_disconnected (connOf : Nat → ConnState) (specs : List Nat) :
    List Nat :=
  specs.foldl
    (fun acc s =>
      match send_json (connOf s) with
      | Except.ok _ => acc
      | Except.error _ => acc ++ [s]) []

/-- The cleanup loop of `broadcast_game_state` (lines 554-560): remove each
collected spectator from the game's spectator set if it is registered in the
global `spectators` dict (`specReg`) and still present. -/
def prune_spectators (specReg : Nat → Bool) (disc : List Nat)
    (specs : List Nat) : List Nat :=
  disc.foldl (fun sp s => if specReg s ∧ sp.contains s then sp.erase s else sp)
    specs

/-- `broadcast_game_state` (server.py lines 494-560): disconnect auto-end
check, guarded sends to both side-holders, spectator fan-out, spectator
cleanup.  Returns in the `Except` monad because each awaited send could, as far
as the caller knows, propagate an exception; the theorems show it never does. -/
def broadcast_game_state {B : Type} (us : List (String × UserRec))
    (connOf : Nat → ConnState) (specReg : Nat → Bool) (now : ℚ)
    (g : ChessGame B) : Except SendErr (ChessGame B) := do
  let w := whitePlayerIds us g.id
  let bl := blackPlayerIds us g.id
  let g1 := disconnect_check us now g
  let _ ← try_send_player us connOf w
  let _ ← try_send_player us connOf bl
  let disc := collect_disconnected connOf g1.spectators
  pure { g1 with spectators := prune_spectators specReg disc g1.spectators }

/-- The clock debit of `timer_update_task` (server.py lines 637-656), the body
executed for an ongoing game: debit the active side's clock by the elapsed time
since `last_move_time`, clamping at 0 and forfeiting on time, then re-anchor
`last_move_time` to the tick's `current_time`. -/
def clock_debit {B : Type} (g : ChessGame B) (now : ℚ) : ChessGame B :=
  let elapsed := now - g.last_move_time
  if g.current_turn = "white" then
    let wt := max 0 (g.white_time - elapsed)
    if wt ≤ 0 then
      { g with white_time := 0, status := "black_wins_time",
               last_move_time := now }
    else
      { g with white_time := wt, last_move_time := now }
  else
    let bt := max 0 (g.black_time - elapsed)
    if bt ≤ 0 then
      { g with black_time := 0, status := "white_wins_time",
               last_move_time := now }
    else
      { g with black_time := bt, last_move_time := now }

/-- One iteration of `timer_update_task` for one game (server.py lines
634-660): nothing happens unless the game is ongoing; otherwise debit the clock
(at the tick's `time.time()`, `now`) and then broadcast, whose own
`time.time()` is `nowB` (in the source `nowB` is sampled moments after `now`,
inside the same loop body). -/
def timer_tick_step {B : Type} (us : List (String × UserRec))
    (connOf : Nat → ConnState) (specReg : Nat → Bool) (now nowB : ℚ)
    (g : ChessGame B) : Except SendErr (ChessGame B) :=
  if g.status = "ongoing" then
    broadcast_game_state us connOf specReg nowB (clock_debit g now)
  else
    Except.ok g

/-- The per-game effect of a disconnected side-holder, shared verbatim by the
`clean_inactive_connections` sweep (server.py lines 80-83) and the handler's
cleanup (lines 744-747): the opposing side wins by disconnect, with no check of
the current status. -/
def forfeit_on_disconnect {B : Type} (g : ChessGame B) (color : String) :
    ChessGame B :=
  if color = "white" then { g with status := "black_wins_disconnect" }
  else { g with status := "white_wins_disconnect" }

/-- The mutable global server state touched by `find_match`: the matchmaking
queue, the `users` dict and the `active_games` dict (all insertion-ordered). -/
structure ServerState (B : Type) : Type where
  player_queue : List String
  users : List (String × UserRec)
  active_games : List (String × ChessGame B)
deriving Repr

/-- `find_match` (server.py lines 299-371).  `gid`/`now` are the fresh game id
and `time.time()` a created game would receive, `connOf` gives each websocket's
state (so `send_ok (connOf u.ws)` is the boolean `send_json` returns; the
source never wraps these sends in try/except, but `send_json` cannot raise —
see `send_json_eq_ok`).  Returns the new state and the source's return value.
A caller absent from `users` raises `KeyError` at line 300, caught by the
handler with no state change — modelled by the `none` branch. -/
def find_match {B M : Type} (R : Rules B M) (gid : String) (now : ℚ)
    (connOf : Nat → ConnState) (st : ServerState B) (pid : String) :
    ServerState B × Bool :=
  match st.users.lookup pid with
  | none => (st, false)
  | some _ =>
    let q := st.player_queue ++ [pid]
    if 2 ≤ q.length then
      match q with
      | [] => ({ st with player_queue := q }, false)
      | [_] => ({ st with player_queue := q }, false)
      | white_id :: black_id :: rest =>
        match st.users.lookup white_id, st.users.lookup black_id with
        | some uw, some ub =>
          let game := newGame uw.username ub.username R.initBoard now gid
          let games1 := st.active_games ++ [(gid, game)]
          let users1 := setUser st.users white_id
            { uw with game_id := some gid, color := some "white" }
          let users2 :=
            match users1.lookup black_id with
            | some ub1 => setUser users1 black_id
                { ub1 with game_id := some gid, color := some "black" }
            | none => users1
          let white_success := send_ok (connOf uw.ws)
          let black_success := send_ok (connOf ub.ws)
          if white_success = false ∨ black_success = false then
            let games2 := games1.filter (fun p => p.1 ≠ gid)
            let step_w :=
              match users2.lookup white_id with
              | some uw2 =>
                (setUser users2 white_id
                  { uw2 with game_id := none, color := none }, rest ++ [white_id])
              | none => (users2, rest)
            let step_b :=
              match step_w.1.lookup black_id with
              | some ub2 =>
                (setUser step_w.1 black_id
                  { ub2 with game_id := none, color := none },
                 step_w.2 ++ [black_id])
              | none => step_w
            ({ player_queue := step_b.2, users := step_b.1,
               active_games := games2 }, false)
          else
            ({ player_queue := rest, users := users2,
               active_games := games1 }, true)
        | some _, none =>
          ({ st with player_queue := rest ++ [white_id] }, false)
        | none, some _ =>
          ({ st with player_queue := rest ++ [black_id] }, false)
        | none, none =>
          ({ st with player_queue := rest }, false)
    else
      ({ st with player_queue := q }, false)

/-- A concrete rules-engine instance used to evaluate the session core on
closed inputs (the core treats the engine as opaque, so any instance
exercises it): a board is its list of played tokens, every token parses except
`"??"`, every token is legal except `"null"`, and a board whose last token is
`"mate onto it"` is never produced, so no game ends by rules verdict. -/
def demoRules : Rules (List String) String :=
  { initBoard := []
    fromUci := fun s => if s = "??" then none else some s
    fromUciErr := fun s => "invalid uci: " ++ s
    isLegal := fun _ m => m ≠ "null"
    is_checkmate := fun b => b.getLast? = some "mate"
    is_stalemate := fun b => b.getLast? = some "stalemate"
    is_insufficient_material := fun _ => false
    push := fun b m => b ++ [m] }

/-- A connection-state table on which every send succeeds. -/
def connAllOk : Nat → ConnState :=
  fun _ => { isOpen := true, sendResult := Except.ok () }

/-- A connection-state table on which exactly the listed websockets are closed
(their sends return `False`); all others succeed. -/
def connClosedOn (dead : List Nat) : Nat → ConnState :=
  fun w =>
    if w ∈ dead then { isOpen := false, sendResult := Except.error SendErr.connClosed }
    else { isOpen := true, sendResult := Except.ok () }

/-- Submitting a list of timestamped action tokens to a game, one
`make_move` at a time (each submission carries the `time.time()` it is
processed at). -/
def playMoves {B M : Type} (R : Rules B M) (g : ChessGame B) :
    List (ℚ × String) → ChessGame B
  | [] => g
  | (t, uci) :: rest => playMoves R (make_move R t g uci).1 rest

/-- The subsequence of submitted tokens the external rules engine accepts
(parse succeeds and the move is legal on the evolving position), written
directly from the rules-engine contract, independently of `make_move`. -/
def acceptedTokens {B M : Type} (R : Rules B M) (b : B) :
    List String → List String
  | [] => []
  | uci :: rest =>
    match R.fromUci uci with
    | none => acceptedTokens R b rest
    | some m =>
      if R.isLegal b m then uci :: acceptedTokens R (R.push b m) rest
      else acceptedTokens R b rest

/-! ### Concrete fixtures for closed evaluations -/

/-- A freshly created session that then concluded as a draw. -/
def gDraw : ChessGame (List String) :=
  { newGame "A" "B" ([] : List String) 0 "g1" with status := "draw" }

/-- A session that white lost on time (board still has legal moves). -/
def gTimeout : ChessGame (List String) :=
  { newGame "A" "B" ([] : List String) 0 "g1" with status := "black_wins_time" }

/-- Server state with identity `A` (websocket 0) already waiting in the
queue. -/
def stDupQueue : ServerState (List String) :=
  { player_queue := ["A"]
    users := [("A", { username := "A", ws := 0, game_id := none, color := none })]
    active_games := [] }

/-- Server state with `A` and `B` queued but `B` already vanished from
`users`; `C` (websocket 2) is registered. -/
def stDropB : ServerState (List String) :=
  { player_queue := ["A", "B"]
    users := [("A", { username := "A", ws := 0, game_id := none, color := none }),
              ("C", { username := "C", ws := 2, game_id := none, color := none })]
    active_games := [] }

/-- Server state with `A` and `B` queued and registered (websockets 0 and 1)
and `C` (websocket 2) about to call in. -/
def stRollback : ServerState (List String) :=
  { player_queue := ["A", "B"]
    users := [("A", { username := "A", ws := 0, game_id := none, color := none }),
              ("B", { username := "B", ws := 1, game_id := none, color := none }),
              ("C", { username := "C", ws := 2, game_id := none, color := none })]
    active_games := [] }

/-- An ongoing session `g1` between `A` (websocket 0, white) and `B`
(websocket 1, black) with one observer on websocket 7. -/
def gObserved : ChessGame (List String) :=
  { newGame "A" "B" ([] : List String) 0 "g1" with spectators := [7] }

/-- The `users` dict binding both side-holders of `g1`. -/
def usBothBound : List (String × UserRec) :=
  [("pa", { username := "A", ws := 0, game_id := some "g1", color := some "white" }),
   ("pb", { username := "B", ws := 1, game_id := some "g1", color := some "black" })]

/-- An ongoing session whose last action was at time 0 and to which no user is
bound any more (both side-holders vanished). -/
def gStale : ChessGame (List String) :=
  newGame "A" "B" ([] : List String) 0 "g9"

/-- `gStale` after the clock tick at time 40: 40 seconds debited from white,
anchor reset to 40, still ongoing. -/
def gStaleTicked : ChessGame (List String) :=
  { gStale with white_time := 560, last_move_time := 40 }

/-- A user record fresh from registration (no game binding). -/
def mkUser (n : String) (ws : Nat) : UserRec :=
  { username := n, ws := ws, game_id := none, color := none }

/-- A server state with an empty queue and no games. -/
def freshState {B : Type} (us : List (String × UserRec)) : ServerState B :=
  { player_queue := [], users := us, active_games := [] }

/-- Server state whose only identity `A` is already bound to an ongoing
session `g0` and not queued. -/
def stInGame : ServerState (List String) :=
  { player_queue := []
    users := [("A", { username := "A", ws := 0, game_id := some "g0",
                      color := some "white" })]
    active_games := [("g0", newGame "A" "Z" ([] : List String) 0 "g0")] }

/-- An ongoing session in which white, to move, has 5 seconds left. -/
def gFiveLeft : ChessGame (List String) :=
  { newGame "A" "B" ([] : List String) 0 "g1" with white_time := 5 }

/-! ### General lemmas about the embedded operations -/

theorem lookup_cons_self {β : Type} (k : String) (u : β) (t : List (String × β)) :
    ((k, u) :: t).lookup k = some u := by
  simp [List.lookup]

theorem lookup_cons_ne {β : Type} (k' k : String) (u : β) (t : List (String × β))
    (h : k' ≠ k) : ((k, u) :: t).lookup k' = t.lookup k' := by
  simp [List.lookup, beq_eq_false_iff_ne.mpr h]

theorem lookup_map_replace_ne {β : Type} (t : List (String × β)) (k : String)
    (v : β) (k' : String) (h : k' ≠ k) :
    (t.map (fun p => if p.1 = k then (k, v) else p)).lookup k' = t.lookup k' := by
  induction t with
  | nil => rfl
  | cons a t ih =>
    rcases a with ⟨a1, a2⟩
    by_cases hak : a1 = k
    · subst hak
      rw [List.map_cons, if_pos rfl, lookup_cons_ne k' a1 v _ h,
        lookup_cons_ne k' a1 a2 t h]
      exact ih
    · rw [List.map_cons, if_neg hak]
      by_cases hk'a : k' = a1
      · subst hk'a
        rw [lookup_cons_self, lookup_cons_self]
      · rw [lookup_cons_ne k' a1 a2 _ hk'a, lookup_cons_ne k' a1 a2 t hk'a]
        exact ih

theorem lookup_map_replace_mem {β : Type} (t : List (String × β)) (k : String)
    (v : β) (h : t.any (fun p => p.1 == k) = true) :
    (t.map (fun p => if p.1 = k then (k, v) else p)).lookup k = some v := by
  induction t with
  | nil => simp at h
  | cons a t ih =>
    rcases a with ⟨a1, a2⟩
    by_cases hak : a1 = k
    · subst hak
      rw [List.map_cons, if_pos rfl, lookup_cons_self]
    · rw [List.map_cons, if_neg hak, lookup_cons_ne k a1 a2 _ (fun he => hak he.symm)]
      apply ih
      simp only [List.any_cons, Bool.or_eq_true] at h
      rcases h with h | h
      · exact absurd (by simpa using h) hak
      · exact h

theorem lookup_append_single {β : Type} (t : List (String × β)) (k' k : String)
    (v : β) :
    (t ++ [(k, v)]).lookup k' =
      if k' = k then (t.lookup k').orElse (fun _ => some v) else t.lookup k' := by
  induction t with
  | nil =>
    by_cases h : k' = k
    · subst h; simp [List.lookup]
    · simp [List.lookup, beq_eq_false_iff_ne.mpr h, h]
  | cons a t ih =>
    rcases a with ⟨a1, a2⟩
    by_cases hk'a : k' = a1
    · subst hk'a
      rw [List.cons_append, lookup_cons_self, lookup_cons_self]
      by_cases h : k' = k
      · rw [if_pos h]; rfl
      · rw [if_neg h]
    · rw [List.cons_append, lookup_cons_ne k' a1 a2 _ hk'a,
        lookup_cons_ne k' a1 a2 t hk'a]
      exact ih

theorem lookup_eq_none_of_not_mem {β : Type} (t : List (String × β)) (k : String)
    (h : t.any (fun p => p.1 == k) = false) : t.lookup k = none := by
  induction t with
  | nil => rfl
  | cons a t ih =>
    rcases a with ⟨a1, a2⟩
    simp only [List.any_cons, Bool.or_eq_false_iff] at h
    rw [lookup_cons_ne k a1 a2 t (by simpa [eq_comm] using (beq_eq_false_iff_ne.mp h.1))]
    exact ih h.2

/-- Dict assignment then lookup: the assigned key reads back the new value, any
other key is unaffected. -/
theorem lookup_setUser (us : List (String × UserRec)) (k : String) (v : UserRec)
    (k' : String) :
    (setUser us k v).lookup k' = if k' = k then some v else us.lookup k' := by
  unfold setUser
  by_cases hk' : k' = k
  · subst hk'
    cases hmem : us.any (fun p => p.1 == k') with
    | true => rw [if_pos rfl, lookup_map_replace_mem us k' v hmem, if_pos rfl]
    | false =>
      rw [if_neg (by simp [hmem]), if_pos rfl, lookup_append_single, if_pos rfl,
        lookup_eq_none_of_not_mem us k' hmem]
      rfl
  · cases hmem : us.any (fun p => p.1 == k) with
    | true => rw [if_pos rfl, lookup_map_replace_ne us k v k' hk', if_neg hk']
    | false =>
      rw [if_neg (by simp [hmem]), lookup_append_single, if_neg hk', if_neg hk']

/-- The guarded side-holder send always returns normally: `send_json` already
caught every exception. -/
theorem try_send_player_ok (us : List (String × UserRec))
    (connOf : Nat → ConnState) (ids : List String) :
    try_send_player us connOf ids = Except.ok () := by
  cases ids with
  | nil => rfl
  | cons pid rest =>
    simp only [try_send_player]
    cases us.lookup pid with
    | none => rfl
    | some u => simp [send_json_eq_ok]

/-- `disconnected_spectators` is always empty: `send_json` returns `False` on a
dead connection instead of raising, so the collecting `except` arms never
run. -/
theorem collect_disconnected_eq_nil (connOf : Nat → ConnState)
    (specs : List Nat) : collect_disconnected connOf specs = [] := by
  unfold collect_disconnected
  suffices h : ∀ acc : List Nat,
      specs.foldl
        (fun acc s =>
          match send_json (connOf s) with
          | Except.ok _ => acc
          | Except.error _ => acc ++ [s]) acc = acc from h []
  induction specs with
  | nil => intro acc; rfl
  | cons s t ih =>
    intro acc
    rw [List.foldl_cons, send_json_eq_ok]
    exact ih acc

/-- What `broadcast_game_state` amounts to on the session state: it returns
normally, and the only state it touches is the status via the disconnect
auto-end check — in particular no spectator is ever pruned. -/
theorem broadcast_game_state_eq {B : Type} (us : List (String × UserRec))
    (connOf : Nat → ConnState) (specReg : Nat → Bool) (now : ℚ)
    (g : ChessGame B) :
    broadcast_game_state us connOf specReg now g =
      Except.ok (disconnect_check us now g) := by
  simp only [broadcast_game_state, try_send_player_ok, collect_disconnected_eq_nil,
    prune_spectators, List.foldl_nil, bind, Except.bind, pure]
  rfl

/-- The disconnect auto-end check never touches a session that is already
terminal: its guard requires `status == "ongoing"`. -/
theorem disconnect_check_of_terminal {B : Type} (us : List (String × UserRec))
    (now : ℚ) (g : ChessGame B) (h : g.status ≠ "ongoing") :
    disconnect_check us now g = g := by
  unfold disconnect_check
  by_cases h1 : ((whitePlayerIds us g.id).isEmpty || (blackPlayerIds us g.id).isEmpty) = true
  · rw [if_pos h1, if_neg (fun hc => h hc.2)]
  · rw [if_neg h1]

/-- The clock debit keeps both clocks nonnegative: the debited clock is clamped
with `max(0, ...)` (or set to exactly 0), the other clock is untouched. -/
theorem clock_debit_nonneg {B : Type} (g : ChessGame B) (now : ℚ)
    (hw : 0 ≤ g.white_time) (hb : 0 ≤ g.black_time) :
    0 ≤ (clock_debit g now).white_time ∧ 0 ≤ (clock_debit g now).black_time := by
  unfold clock_debit
  by_cases h1 : g.current_turn = "white"
  · simp only [if_pos h1]
    by_cases h2 : max 0 (g.white_time - (now - g.last_move_time)) ≤ 0
    · rw [if_pos h2]; exact ⟨le_refl 0, hb⟩
    · rw [if_neg h2]; exact ⟨le_max_left 0 _, hb⟩
  · simp only [if_neg h1]
    by_cases h2 : max 0 (g.black_time - (now - g.last_move_time)) ≤ 0
    · rw [if_pos h2]; exact ⟨hw, le_refl 0⟩
    · rw [if_neg h2]; exact ⟨hw, le_max_left 0 _⟩

/-- Debiting white's clock to or past zero in one tick clamps it to exactly 0
and flips the session to `black_wins_time` in the same step. -/
theorem clock_debit_clamp_white {B : Type} (g : ChessGame B) (now : ℚ)
    (hturn : g.current_turn = "white")
    (hel : g.white_time ≤ now - g.last_move_time) :
    clock_debit g now =
      { g with white_time := 0, status := "black_wins_time",
               last_move_time := now } := by
  have h2 : max 0 (g.white_time - (now - g.last_move_time)) ≤ (0 : ℚ) :=
    max_le (le_refl 0) (by linarith)
  simp only [clock_debit, if_pos hturn]
  rw [if_pos h2]

/-- Debiting black's clock to or past zero clamps it to 0 and flips the session
to `white_wins_time`. -/
theorem clock_debit_clamp_black {B : Type} (g : ChessGame B) (now : ℚ)
    (hturn : g.current_turn ≠ "white")
    (hel : g.black_time ≤ now - g.last_move_time) :
    clock_debit g now =
      { g with black_time := 0, status := "white_wins_time",
               last_move_time := now } := by
  have h2 : max 0 (g.black_time - (now - g.last_move_time)) ≤ (0 : ℚ) :=
    max_le (le_refl 0) (by linarith)
  simp only [clock_debit, if_neg hturn]
  rw [if_pos h2]

/-- With an empty queue, `find_match` enqueues the caller at the tail — with no
check that the caller is already bound to a session. -/
theorem find_match_enqueues {B M : Type} (R : Rules B M) (gid : String) (now : ℚ)
    (connOf : Nat → ConnState) (st : ServerState B) (pid : String) (u : UserRec)
    (hu : st.users.lookup pid = some u) (hq : st.player_queue = []) :
    find_match R gid now connOf st pid =
      ({ st with player_queue := [pid] }, false) := by
  rcases st with ⟨q0, us0, gs0⟩
  simp only at hu hq
  subst hq
  simp [find_match, hu]

/-- When exactly one (different, still-registered) identity is waiting and both
`game_start` notifications succeed, `find_match` pairs the two: the
earlier-queued identity is popped first and becomes white, the caller black,
and both leave the queue for good. -/
theorem find_match_pairs {B M : Type} (R : Rules B M) (gid : String) (now : ℚ)
    (connOf : Nat → ConnState) (st : ServerState B) (pid w : String)
    (up uw : UserRec)
    (hq : st.player_queue = [w])
    (hw : st.users.lookup w = some uw)
    (hp : st.users.lookup pid = some up)
    (hne : pid ≠ w)
    (hsw : send_ok (connOf uw.ws) = true)
    (hsp : send_ok (connOf up.ws) = true) :
    find_match R gid now connOf st pid =
      ({ player_queue := []
         users := setUser (setUser st.users w
             { uw with game_id := some gid, color := some "white" }) pid
           { up with game_id := some gid, color := some "black" }
         active_games := st.active_games ++
           [(gid, newGame uw.username up.username R.initBoard now gid)] }, true) := by
  rcases st with ⟨q0, us0, gs0⟩
  simp only at hq hw hp
  subst hq
  simp only [find_match, hp, List.cons_append, List.nil_append, List.length_cons,
    List.length_nil, hw, lookup_setUser, if_neg hne, hsw, hsp]
  norm_num

/-- Looking up a key that a filter excludes yields nothing: deleting a game id
from the games dict makes it unreachable. -/
theorem lookup_filter_ne_key {β : Type} (l : List (String × β)) (gid : String) :
    (l.filter (fun p => decide (p.1 ≠ gid))).lookup gid = none := by
  induction l with
  | nil => rfl
  | cons a t ih =>
    rcases a with ⟨k, g⟩
    by_cases hk : k = gid
    · subst hk
      simpa using ih
    · rw [List.filter_cons_of_pos (by simpa using hk),
        lookup_cons_ne gid k g _ (fun he => hk he.symm)]
      exact ih

/-- Drop-and-requeue, white still registered: when the queue (after the
caller's append) starts `w :: bk :: rest` and `bk` has vanished from `users`,
`w` is re-queued by `player_queue.append` — at the tail, after `rest`. -/
theorem find_match_drop_keeps_white {B M : Type} (R : Rules B M) (gid : String)
    (now : ℚ) (connOf : Nat → ConnState) (st : ServerState B) (pid w bk : String)
    (rest : List String) (upid uw : UserRec)
    (hpid : st.users.lookup pid = some upid)
    (hq : st.player_queue ++ [pid] = w :: bk :: rest)
    (hw : st.users.lookup w = some uw)
    (hbk : st.users.lookup bk = none) :
    find_match R gid now connOf st pid =
      ({ st with player_queue := rest ++ [w] }, false) := by
  simp only [find_match, hpid, hq, List.length_cons, hw, hbk]
  norm_num

/-- Drop-and-requeue, black still registered: symmetric to the previous lemma,
the surviving `bk` is appended at the tail. -/
theorem find_match_drop_keeps_black {B M : Type} (R : Rules B M) (gid : String)
    (now : ℚ) (connOf : Nat → ConnState) (st : ServerState B) (pid w bk : String)
    (rest : List String) (upid ub : UserRec)
    (hpid : st.users.lookup pid = some upid)
    (hq : st.player_queue ++ [pid] = w :: bk :: rest)
    (hw : st.users.lookup w = none)
    (hbk : st.users.lookup bk = some ub) :
    find_match R gid now connOf st pid =
      ({ st with player_queue := rest ++ [bk] }, false) := by
  simp only [find_match, hpid, hq, List.length_cons, hw, hbk]
  norm_num

/-- Notification-failure rollback: if either `game_start` send fails, the game
is deleted again, both popped identities keep no game binding, and both are
re-queued by `player_queue.append` — at the tail, after `rest`. -/
theorem find_match_rollback {B M : Type} (R : Rules B M) (gid : String)
    (now : ℚ) (connOf : Nat → ConnState) (st : ServerState B) (pid w bk : String)
    (rest : List String) (upid uw ub : UserRec)
    (hpid : st.users.lookup pid = some upid)
    (hq : st.player_queue ++ [pid] = w :: bk :: rest)
    (hw : st.users.lookup w = some uw)
    (hbk : st.users.lookup bk = some ub)
    (hne : bk ≠ w)
    (hfail : send_ok (connOf uw.ws) = false ∨ send_ok (connOf ub.ws) = false) :
    find_match R gid now connOf st pid =
      ({ player_queue := rest ++ [w, bk]
         users := setUser (setUser
             (setUser (setUser st.users w
               { uw with game_id := some gid, color := some "white" }) bk
               { ub with game_id := some gid, color := some "black" }) w
             { uw with game_id := none, color := none }) bk
           { ub with game_id := none, color := none }
         active_games := (st.active_games ++
             [(gid, newGame uw.username ub.username R.initBoard now gid)]).filter
           (fun p => decide (p.1 ≠ gid)) }, false) := by
  simp only [find_match, hpid, hq, List.length_cons, hw, hbk, lookup_setUser,
    if_neg hne, if_pos rfl]
  rcases hfail with hf | hf <;>
    simp [hf, lookup_setUser, hne, Ne.symm hne, List.append_assoc]

/-- An accepted action: `make_move` reports success, pushes the move on the
board and appends exactly the submitted token to the move history. -/
theorem make_move_accepted {B M : Type} (R : Rules B M) (now : ℚ)
    (g : ChessGame B) (uci : String) (m : M) (hm : R.fromUci uci = some m)
    (hleg : R.isLegal g.board m = true) :
    (make_move R now g uci).2.1 = true ∧
    (make_move R now g uci).1.board = R.push g.board m ∧
    (make_move R now g uci).1.move_history = g.move_history ++ [uci] := by
  simp [make_move, hm, hleg]

/-- A token the engine cannot parse: the exception is caught and the game is
returned unchanged with a failure. -/
theorem make_move_parse_fail {B M : Type} (R : Rules B M) (now : ℚ)
    (g : ChessGame B) (uci : String) (hm : R.fromUci uci = none) :
    make_move R now g uci = (g, false, R.fromUciErr uci) := by
  simp [make_move, hm]

/-- An illegal action: rejected with no state change. -/
theorem make_move_illegal {B M : Type} (R : Rules B M) (now : ℚ)
    (g : ChessGame B) (uci : String) (m : M) (hm : R.fromUci uci = some m)
    (hleg : R.isLegal g.board m = false) :
    make_move R now g uci = (g, false, "Illegal move") := by
  simp [make_move, hm, hleg]

/-- `make_move` never touches the clocks. -/
theorem make_move_clocks {B M : Type} (R : Rules B M) (now : ℚ)
    (g : ChessGame B) (uci : String) :
    (make_move R now g uci).1.white_time = g.white_time ∧
    (make_move R now g uci).1.black_time = g.black_time := by
  unfold make_move
  cases R.fromUci uci with
  | none => exact ⟨rfl, rfl⟩
  | some m =>
    by_cases hleg : R.isLegal g.board m = true <;> simp [hleg]

/-- Round-trip between the move log and the rules engine: after any sequence
of submissions, the move history extends the starting history by exactly the
tokens the rules engine accepted, verbatim and in submission order. -/
theorem playMoves_move_history {B M : Type} (R : Rules B M) :
    ∀ (ms : List (ℚ × String)) (g : ChessGame B),
      (playMoves R g ms).move_history =
        g.move_history ++ acceptedTokens R g.board (ms.map Prod.snd) := by
  intro ms
  induction ms with
  | nil => intro g; simp [playMoves, acceptedTokens]
  | cons p rest ih =>
    intro g
    rcases p with ⟨t, uci⟩
    rw [playMoves, List.map_cons]
    cases hm : R.fromUci uci with
    | none =>
      rw [make_move_parse_fail R t g uci hm]
      rw [ih g]
      simp [acceptedTokens, hm]
    | some m =>
      cases hleg : R.isLegal g.board m with
      | false =>
        rw [make_move_illegal R t g uci m hm hleg]
        rw [ih g]
        simp [acceptedTokens, hm, hleg]
      | true =>
        obtain ⟨-, hboard, hhist⟩ := make_move_accepted R t g uci m hm hleg
        rw [ih ((make_move R t g uci).1), hboard, hhist]
        simp [acceptedTokens, hm, hleg]

/-- An identity that is already the sole waiting entry and calls `find_match`
again is appended a second time, immediately popped for both sides, and
matched against itself. -/
theorem find_match_self_match {B M : Type} (R : Rules B M) (gid : String)
    (now : ℚ) (connOf : Nat → ConnState) (st : ServerState B) (pid : String)
    (u : UserRec)
    (hp : st.users.lookup pid = some u)
    (hq : st.player_queue = [pid])
    (hs : send_ok (connOf u.ws) = true) :
    find_match R gid now connOf st pid =
      ({ player_queue := []
         users := setUser (setUser st.users pid
             { u with game_id := some gid, color := some "white" }) pid
           { u with game_id := some gid, color := some "black" }
         active_games := st.active_games ++
           [(gid, newGame u.username u.username R.initBoard now gid)] }, true) := by
  rcases st with ⟨q0, us0, gs0⟩
  simp only at hq hp
  subst hq
  simp only [find_match, hp, List.cons_append, List.nil_append, List.length_cons,
    List.length_nil, lookup_setUser, if_pos rfl, hs]
  norm_num

/-! ### Claim theorems -/

/-- C10: every newly created session starts with status `ongoing`, white
(the first side) to move, both clocks at exactly 600 seconds, the last-action
anchor at the creation instant, and empty action log, chat buffer and
observer set. -/
theorem claim_new_session_initial_state {B : Type} (w b : String) (b0 : B)
    (now : ℚ) (gid : String) :
    (newGame w b b0 now gid).status = "ongoing" ∧
    (newGame w b b0 now gid).current_turn = "white" ∧
    (newGame w b b0 now gid).white_time = 600 ∧
    (newGame w b b0 now gid).black_time = 600 ∧
    (newGame w b b0 now gid).last_move_time = now ∧
    (newGame w b b0 now gid).move_history = [] ∧
    (newGame w b b0 now gid).chat_history = [] ∧
    (newGame w b b0 now gid).spectators = [] ∧
    (newGame w b b0 now gid).white_player = w ∧
    (newGame w b b0 now gid).black_player = b :=
  ⟨rfl, rfl, rfl, rfl, rfl, rfl, rfl, rfl, rfl, rfl⟩

/-- C9: after any sequence of submissions the action log extends the starting
log by exactly the tokens the rules engine accepted, verbatim and in
submission order; rejected tokens are never appended. -/
theorem claim_action_log_round_trip {B M : Type} (R : Rules B M)
    (ms : List (ℚ × String)) (g : ChessGame B) :
    (playMoves R g ms).move_history =
      g.move_history ++ acceptedTokens R g.board (ms.map Prod.snd) :=
  playMoves_move_history R ms g

/-- C2: clocks are nonnegative in the initial state and preserved so by every
operation that touches a session, and a tick that debits the active side's
clock to or past zero clamps it to exactly 0 and, in the same step, flips the
session to the other side's win on time. -/
theorem claim_clocks_nonneg_and_time_forfeit {B M : Type} (R : Rules B M)
    (w bl : String) (b0 : B) (t0 : ℚ) (gid uci color : String)
    (g : ChessGame B) (now : ℚ) (us : List (String × UserRec)) :
    (0 ≤ (newGame w bl b0 t0 gid).white_time ∧
     0 ≤ (newGame w bl b0 t0 gid).black_time) ∧
    (0 ≤ g.white_time → 0 ≤ g.black_time →
      0 ≤ (clock_debit g now).white_time ∧ 0 ≤ (clock_debit g now).black_time) ∧
    ((make_move R now g uci).1.white_time = g.white_time ∧
     (make_move R now g uci).1.black_time = g.black_time) ∧
    ((forfeit_on_disconnect g color).white_time = g.white_time ∧
     (forfeit_on_disconnect g color).black_time = g.black_time) ∧
    ((disconnect_check us now g).white_time = g.white_time ∧
     (disconnect_check us now g).black_time = g.black_time) ∧
    (g.current_turn = "white" → g.white_time ≤ now - g.last_move_time →
      clock_debit g now =
        { g with white_time := 0, status := "black_wins_time",
                 last_move_time := now }) ∧
    (g.current_turn ≠ "white" → g.black_time ≤ now - g.last_move_time →
      clock_debit g now =
        { g with black_time := 0, status := "white_wins_time",
                 last_move_time := now }) := by
  refine ⟨⟨by norm_num [newGame], by norm_num [newGame]⟩,
    fun hw hb => clock_debit_nonneg g now hw hb, make_move_clocks R now g uci,
    ?_, ?_, clock_debit_clamp_white g now, clock_debit_clamp_black g now⟩
  · unfold forfeit_on_disconnect
    split_ifs <;> exact ⟨rfl, rfl⟩
  · unfold disconnect_check
    split_ifs <;> exact ⟨rfl, rfl⟩

/-- C2 witness: white to move with 5 seconds left and 6 seconds elapsed since
the anchor — the tick clamps white's clock to exactly 0, the session becomes
`black_wins_time`, and both clocks are nonnegative. -/
theorem claim_clocks_nonneg_and_time_forfeit_w :
    clock_debit gFiveLeft 6 =
      { gFiveLeft with white_time := 0, status := "black_wins_time",
                       last_move_time := 6 } ∧
    0 ≤ (clock_debit gFiveLeft 6).white_time ∧
    0 ≤ (clock_debit gFiveLeft 6).black_time := by
  have h := claim_clocks_nonneg_and_time_forfeit (R := demoRules) "A" "B"
    ([] : List String) 0 "g1" "e2e4" "white" gFiveLeft 6 []
  exact ⟨h.2.2.2.2.2.1 rfl (by norm_num [gFiveLeft, newGame]),
    (h.2.1 (by norm_num [gFiveLeft, newGame]) (by norm_num [gFiveLeft, newGame])).1,
    (h.2.1 (by norm_num [gFiveLeft, newGame]) (by norm_num [gFiveLeft, newGame])).2⟩

/-- C6: a submission whose side is not the active side is answered with an
error and the session is returned unchanged; a submission the rules engine
rejects (illegal, or unparsable so the engine raises) is answered with an
error and the session is likewise unchanged. -/
theorem claim_rejected_submissions_no_change {B M : Type} (R : Rules B M)
    (now : ℚ) (g : ChessGame B) (color uci : String)
    (hside : color = "white" ∨ color = "black") :
    (color ≠ g.current_turn →
      handle_move R now g color uci = (g, some "Not your turn")) ∧
    (∀ m, color = g.current_turn → R.fromUci uci = some m →
      R.isLegal g.board m = false →
      handle_move R now g color uci = (g, some "Illegal move")) ∧
    (color = g.current_turn → R.fromUci uci = none →
      handle_move R now g color uci = (g, some (R.fromUciErr uci))) := by
  refine ⟨?_, ?_, ?_⟩
  · intro hturn
    unfold handle_move
    rcases hside with h | h <;> subst h
    · rw [if_pos (Or.inl ⟨rfl, fun hw => hturn hw.symm⟩)]
    · rw [if_pos (Or.inr ⟨rfl, fun hw => hturn hw.symm⟩)]
  · intro m hturn hm hleg
    unfold handle_move
    rw [if_neg (by rintro (⟨h1, h2⟩ | ⟨h1, h2⟩) <;> exact h2 (h1 ▸ hturn.symm)),
      make_move_illegal R now g uci m hm hleg]
  · intro hturn hm
    unfold handle_move
    rw [if_neg (by rintro (⟨h1, h2⟩ | ⟨h1, h2⟩) <;> exact h2 (h1 ▸ hturn.symm)),
      make_move_parse_fail R now g uci hm]

/-- C6 witness: on a fresh session (white to move), black's submission is
rejected out of turn, white's illegal token and unparsable token are rejected
by the engine — in all three cases the session is returned unchanged. -/
theorem claim_rejected_submissions_no_change_w :
    handle_move demoRules 1 (newGame "A" "B" ([] : List String) 0 "g1") "black"
      "e2e4" = (newGame "A" "B" ([] : List String) 0 "g1", some "Not your turn") ∧
    handle_move demoRules 1 (newGame "A" "B" ([] : List String) 0 "g1") "white"
      "null" = (newGame "A" "B" ([] : List String) 0 "g1", some "Illegal move") ∧
    handle_move demoRules 1 (newGame "A" "B" ([] : List String) 0 "g1") "white"
      "??" = (newGame "A" "B" ([] : List String) 0 "g1",
        some (demoRules.fromUciErr "??")) := by
  have h1 := claim_rejected_submissions_no_change demoRules 1
    (newGame "A" "B" ([] : List String) 0 "g1") "black" "e2e4" (Or.inr rfl)
  have h2 := claim_rejected_submissions_no_change demoRules 1
    (newGame "A" "B" ([] : List String) 0 "g1") "white" "null" (Or.inl rfl)
  have h3 := claim_rejected_submissions_no_change demoRules 1
    (newGame "A" "B" ([] : List String) 0 "g1") "white" "??" (Or.inl rfl)
  exact ⟨h1.1 (by decide), h2.2.1 "null" rfl (by decide) (by decide),
    h3.2.2 rfl (by decide)⟩

/-- C1 counterexample: operations on terminal sessions are not no-ops.  A
disconnect forfeiture applied to a session already concluded as a draw
overwrites its status, and a legal move submitted to a session already lost on
time is accepted and appended to the action log. -/
theorem claim_terminal_idempotence_cex :
    gDraw.status = "draw" ∧
    (forfeit_on_disconnect gDraw "white").status = "black_wins_disconnect" ∧
    gTimeout.status = "black_wins_time" ∧
    gTimeout.move_history = [] ∧
    (make_move demoRules 5 gTimeout "e2e4").2.1 = true ∧
    (make_move demoRules 5 gTimeout "e2e4").1.move_history = ["e2e4"] ∧
    (make_move demoRules 5 gTimeout "e2e4").1.current_turn = "black" := by
  decide

/-- C1 amended: only the clock tick (with its broadcast) is guarded by the
terminal check and leaves a non-ongoing session unchanged; the disconnect
forfeiture overwrites the status unconditionally, even on a terminal session,
and a move submitted to a terminal session is not rejected for terminality —
if it passes the turn and legality checks it is applied to the log and turn. -/
theorem claim_terminal_guard_partial {B M : Type} (R : Rules B M)
    (us : List (String × UserRec)) (connOf : Nat → ConnState)
    (specReg : Nat → Bool) (t tB : ℚ) (g : ChessGame B) (uci : String) :
    (g.status ≠ "ongoing" →
      timer_tick_step us connOf specReg t tB g = Except.ok g) ∧
    (forfeit_on_disconnect g "white" =
        { g with status := "black_wins_disconnect" } ∧
     forfeit_on_disconnect g "black" =
        { g with status := "white_wins_disconnect" }) ∧
    (∀ m, g.status ≠ "ongoing" → R.fromUci uci = some m →
      R.isLegal g.board m = true →
      (make_move R t g uci).2.1 = true ∧
      (make_move R t g uci).1.move_history = g.move_history ++ [uci]) := by
  refine ⟨?_, ⟨?_, ?_⟩, ?_⟩
  · intro h
    unfold timer_tick_step
    rw [if_neg h]
  · unfold forfeit_on_disconnect
    rw [if_pos rfl]
  · unfold forfeit_on_disconnect
    rw [if_neg (by decide)]
  · intro m hstat hm hleg
    obtain ⟨hs, -, hh⟩ := make_move_accepted R t g uci m hm hleg
    exact ⟨hs, hh⟩

/-- C1 amended witness: a tick at times 1/1 leaves the drawn session `gDraw`
untouched, while a legal move on the timed-out session `gTimeout` is applied. -/
theorem claim_terminal_guard_partial_w :
    timer_tick_step ([] : List (String × UserRec)) connAllOk (fun _ => false)
      1 1 gDraw = Except.ok gDraw ∧
    (make_move demoRules 5 gTimeout "e2e4").2.1 = true ∧
    (make_move demoRules 5 gTimeout "e2e4").1.move_history =
      gTimeout.move_history ++ ["e2e4"] := by
  have h1 := claim_terminal_guard_partial demoRules
    ([] : List (String × UserRec)) connAllOk (fun _ => false) 1 1 gDraw "e2e4"
  have h2 := claim_terminal_guard_partial demoRules
    ([] : List (String × UserRec)) connAllOk (fun _ => false) 5 1 gTimeout "e2e4"
  exact ⟨h1.1 (by decide),
    (h2.2.2 "e2e4" (by decide) rfl (by decide)).1,
    (h2.2.2 "e2e4" (by decide) rfl (by decide)).2⟩

/-- C5 (code bug): broadcasting to a session whose only observer's connection
is closed neither raises nor aborts — but the dead observer is *not* removed
from the spectator set: `send_json` swallows the send failure and returns
`False`, so the `except`-based collection of `disconnected_spectators` in
`broadcast_game_state` never runs. -/
theorem claim_broadcast_dead_observer_kept :
    (connClosedOn [7] 7).isOpen = false ∧
    send_ok (connClosedOn [7] 7) = false ∧
    gObserved.spectators = [7] ∧
    broadcast_game_state usBothBound (connClosedOn [7]) (fun _ => true) 1
      gObserved = Except.ok gObserved := by
  decide

/-- C7 (code bug): the stale-session guard never fires from the clock loop.
`gStale` is ongoing, has no side-holder bound in `users`, and its last action
was 40 > 30 seconds before the tick — yet the tick leaves it ongoing, because
the tick re-anchors `last_move_time` to the tick's own timestamp before
`broadcast_game_state` measures `time_since_move`.  The guard could only fire
if more than 30 seconds elapsed *within* one loop body (`nowB - now > 30`). -/
theorem claim_stale_disconnect_guard_dead :
    gStale.status = "ongoing" ∧
    whitePlayerIds ([] : List (String × UserRec)) gStale.id = [] ∧
    blackPlayerIds ([] : List (String × UserRec)) gStale.id = [] ∧
    ((40 : ℚ) - gStale.last_move_time > 30) ∧
    timer_tick_step ([] : List (String × UserRec)) connAllOk (fun _ => false)
      40 40 gStale = Except.ok gStaleTicked ∧
    gStaleTicked.status = "ongoing" ∧
    (∀ tB : ℚ, tB - 40 ≤ 30 →
      ∃ g1, timer_tick_step ([] : List (String × UserRec)) connAllOk
          (fun _ => false) 40 tB gStale = Except.ok g1 ∧
        g1.status = "ongoing") := by
  have hcd : clock_debit gStale 40 = gStaleTicked := by
    have hmax : max (0 : ℚ) (gStale.white_time - (40 - gStale.last_move_time))
        = 560 := by
      rw [show gStale.white_time = 600 from rfl,
        show gStale.last_move_time = 0 from rfl]
      norm_num
    unfold clock_debit
    rw [if_pos (show gStale.current_turn = "white" from rfl), hmax,
      if_neg (by norm_num)]
    rfl
  have hstep : ∀ tB : ℚ,
      timer_tick_step ([] : List (String × UserRec)) connAllOk (fun _ => false)
        40 tB gStale =
        Except.ok (disconnect_check ([] : List (String × UserRec)) tB
          gStaleTicked) := by
    intro tB
    unfold timer_tick_step
    rw [if_pos (show gStale.status = "ongoing" from rfl), hcd,
      broadcast_game_state_eq]
  have hdc : ∀ tB : ℚ, tB - 40 ≤ 30 →
      disconnect_check ([] : List (String × UserRec)) tB gStaleTicked =
        gStaleTicked := by
    intro tB htB
    unfold disconnect_check
    rw [if_pos (by decide), if_neg ?hng]
    case hng =>
      rintro ⟨hgt, -⟩
      have h40 : gStaleTicked.last_move_time = 40 := rfl
      rw [h40] at hgt
      linarith
  refine ⟨rfl, rfl, rfl, by norm_num [gStale, newGame], ?_, rfl, ?_⟩
  · rw [hstep 40, hdc 40 (by norm_num)]
  · intro tB htB
    exact ⟨gStaleTicked, by rw [hstep tB, hdc tB htB], rfl⟩
/-- C7 witness: the bounded-broadcast-time clause instantiated at the tick's
own timestamp. -/
theorem claim_stale_disconnect_guard_dead_w :
    ∃ g1, timer_tick_step ([] : List (String × UserRec)) connAllOk
        (fun _ => false) 40 40 gStale = Except.ok g1 ∧
      g1.status = "ongoing" :=
  claim_stale_disconnect_guard_dead.2.2.2.2.2.2 40 (by norm_num)

/-- C3 counterexample: an identity already waiting in the queue that calls
`find_match` again does not leave the queue unchanged — the duplicate append
goes through, the two copies are immediately popped, and the identity is
matched against itself (holding both sides of one new ongoing session). -/
theorem claim_no_duplicate_enqueue_cex :
    stDupQueue.player_queue = ["A"] ∧
    (find_match demoRules "g1" 0 connAllOk stDupQueue "A").1.player_queue = [] ∧
    ((find_match demoRules "g1" 0 connAllOk stDupQueue "A").1.active_games.map
      (fun p => (p.1, p.2.white_player, p.2.black_player))) =
      [("g1", "A", "A")] ∧
    (find_match demoRules "g1" 0 connAllOk stDupQueue "A").2 = true := by
  decide

/-- C3 amended: the enqueue in `find_match` is an unconditional append — an
identity already queued, or already bound to a session, is appended again.  An
empty queue always becomes `[pid]` (even when `pid` is mid-session), and a
caller that is already the sole waiting entry is popped twice and matched
against itself. -/
theorem claim_enqueue_unconditional {B M : Type} (R : Rules B M) (gid : String)
    (now : ℚ) (connOf : Nat → ConnState) (st : ServerState B) (pid : String)
    (u : UserRec) (hp : st.users.lookup pid = some u) :
    (st.player_queue = [] →
      find_match R gid now connOf st pid =
        ({ st with player_queue := [pid] }, false)) ∧
    (st.player_queue = [pid] → send_ok (connOf u.ws) = true →
      find_match R gid now connOf st pid =
        ({ player_queue := []
           users := setUser (setUser st.users pid
               { u with game_id := some gid, color := some "white" }) pid
             { u with game_id := some gid, color := some "black" }
           active_games := st.active_games ++
             [(gid, newGame u.username u.username R.initBoard now gid)] },
         true)) :=
  ⟨fun hq => find_match_enqueues R gid now connOf st pid u hp hq,
   fun hq hs => find_match_self_match R gid now connOf st pid u hp hq hs⟩

/-- C3 amended witness: identity `A`, already bound to the ongoing session
`g0`, is nevertheless enqueued; and from `stDupQueue` the duplicate append
leads to the self-match. -/
theorem claim_enqueue_unconditional_w :
    find_match demoRules "g7" 0 connAllOk stInGame "A" =
      ({ stInGame with player_queue := ["A"] }, false) ∧
    (find_match demoRules "g1" 0 connAllOk stDupQueue "A").2 = true := by
  constructor
  · exact (claim_enqueue_unconditional demoRules "g7" 0 connAllOk stInGame "A"
      { username := "A", ws := 0, game_id := some "g0", color := some "white" }
      rfl).1 rfl
  · rw [(claim_enqueue_unconditional demoRules "g1" 0 connAllOk stDupQueue "A"
      { username := "A", ws := 0, game_id := none, color := none }
      rfl).2 rfl rfl]

/-- C4 counterexample: the surviving identity is re-queued at the tail, not
the head.  Dropping vanished `B` re-queues `A` after the later arrival `C`
(queue `["C", "A"]`, not `["A", "C"]`), and a failed `game_start` send
re-queues both `A` and `B` after `C` (queue `["C", "A", "B"]`). -/
theorem claim_requeue_at_head_cex :
    (find_match demoRules "g1" 0 connAllOk stDropB "C").1.player_queue =
      ["C", "A"] ∧
    (find_match demoRules "g1" 0 connAllOk stDropB "C").1.player_queue.head? ≠
      some "A" ∧
    (find_match demoRules "g1" 0 (connClosedOn [0]) stRollback
      "C").1.player_queue = ["C", "A", "B"] ∧
    (find_match demoRules "g1" 0 (connClosedOn [0]) stRollback
      "C").1.player_queue.head? ≠ some "A" ∧
    (find_match demoRules "g1" 0 (connClosedOn [0]) stRollback
      "C").1.player_queue.head? ≠ some "B" := by
  decide

/-- C4 amended: when one popped identity has vanished, the survivor is
re-queued at the **tail** of the remaining queue; and on a failed session-start
notification the session is torn down and both (still-registered) popped
identities are re-queued at the tail, in pop order. -/
theorem claim_requeue_at_tail {B M : Type} (R : Rules B M) (gid : String)
    (now : ℚ) (connOf : Nat → ConnState) (st : ServerState B)
    (pid w bk : String) (rest : List String) (upid uw ub : UserRec)
    (hpid : st.users.lookup pid = some upid)
    (hq : st.player_queue ++ [pid] = w :: bk :: rest) :
    (st.users.lookup w = some uw → st.users.lookup bk = none →
      find_match R gid now connOf st pid =
        ({ st with player_queue := rest ++ [w] }, false)) ∧
    (st.users.lookup w = none → st.users.lookup bk = some ub →
      find_match R gid now connOf st pid =
        ({ st with player_queue := rest ++ [bk] }, false)) ∧
    (st.users.lookup w = some uw → st.users.lookup bk = some ub → bk ≠ w →
      (send_ok (connOf uw.ws) = false ∨ send_ok (connOf ub.ws) = false) →
      (find_match R gid now connOf st pid).1.player_queue = rest ++ [w, bk] ∧
      (find_match R gid now connOf st pid).1.active_games.lookup gid = none ∧
      (find_match R gid now connOf st pid).2 = false) := by
  refine ⟨fun hw hbk =>
      find_match_drop_keeps_white R gid now connOf st pid w bk rest upid uw
        hpid hq hw hbk,
    fun hw hbk =>
      find_match_drop_keeps_black R gid now connOf st pid w bk rest upid ub
        hpid hq hw hbk,
    fun hw hbk hne hfail => ?_⟩
  rw [find_match_rollback R gid now connOf st pid w bk rest upid uw ub hpid hq
    hw hbk hne hfail]
  exact ⟨rfl, lookup_filter_ne_key _ gid, rfl⟩

/-- C4 amended witness: the two scenarios of the counterexample, obtained by
applying the general tail-re-queue theorem at its concrete inputs. -/
theorem claim_requeue_at_tail_w :
    find_match demoRules "g1" 0 connAllOk stDropB "C" =
      ({ stDropB with player_queue := ["C"] ++ ["A"] }, false) ∧
    (find_match demoRules "g1" 0 (connClosedOn [0]) stRollback
      "C").1.player_queue = ["C"] ++ ["A", "B"] := by
  constructor
  · exact (claim_requeue_at_tail demoRules "g1" 0 connAllOk stDropB "C"
      "A" "B" ["C"] (mkUser "C" 2) (mkUser "A" 0) (mkUser "B" 1) rfl rfl).1
      rfl rfl
  · exact ((claim_requeue_at_tail demoRules "g1" 0 (connClosedOn [0])
      stRollback "C" "A" "B" ["C"] (mkUser "C" 2) (mkUser "A" 0)
      (mkUser "B" 1) rfl rfl).2.2 rfl rfl (by decide) (Or.inl rfl)).1

/-- C8: matchmaking is FIFO and pairwise fair.  For four registered identities
calling `find_match` in order `a, b, c, d` (no disconnects, all notifications
delivered), the first created session pairs exactly `a` (white, popped first)
with `b` (black), the second pairs exactly `c` (white) with `d` (black), and
the queue is empty afterwards. -/
theorem claim_fifo_pairwise_matching {B M : Type} (R : Rules B M)
    (g1 g2 : String) (t1 t2 t3 t4 : ℚ) (connOf : Nat → ConnState)
    (a b c d na nb nc nd : String) (wa wb wc wd : Nat)
    (hsend : ∀ ws : Nat, send_ok (connOf ws) = true)
    (hab : a ≠ b) (hac : a ≠ c) (had : a ≠ d)
    (hbc : b ≠ c) (hbd : b ≠ d) (hcd : c ≠ d) :
    ((find_match R g1 t2 connOf (find_match R g1 t1 connOf
        (freshState [(a, mkUser na wa), (b, mkUser nb wb), (c, mkUser nc wc),
          (d, mkUser nd wd)]) a).1 b).1.active_games.map
      (fun p => (p.1, p.2.white_player, p.2.black_player)) = [(g1, na, nb)]) ∧
    ((find_match R g2 t4 connOf (find_match R g2 t3 connOf (find_match R g1 t2
        connOf (find_match R g1 t1 connOf
          (freshState [(a, mkUser na wa), (b, mkUser nb wb), (c, mkUser nc wc),
            (d, mkUser nd wd)]) a).1 b).1 c).1 d).1.active_games.map
      (fun p => (p.1, p.2.white_player, p.2.black_player)) =
      [(g1, na, nb), (g2, nc, nd)]) ∧
    (find_match R g2 t4 connOf (find_match R g2 t3 connOf (find_match R g1 t2
        connOf (find_match R g1 t1 connOf
          (freshState [(a, mkUser na wa), (b, mkUser nb wb), (c, mkUser nc wc),
            (d, mkUser nd wd)]) a).1 b).1 c).1 d).1.player_queue = [] := by
  have lka : ([(a, mkUser na wa), (b, mkUser nb wb), (c, mkUser nc wc),
      (d, mkUser nd wd)]).lookup a = some (mkUser na wa) :=
    lookup_cons_self a (mkUser na wa) _
  have lkb : ([(a, mkUser na wa), (b, mkUser nb wb), (c, mkUser nc wc),
      (d, mkUser nd wd)]).lookup b = some (mkUser nb wb) := by
    rw [lookup_cons_ne b a (mkUser na wa) _ (Ne.symm hab), lookup_cons_self]
  have lkc : ([(a, mkUser na wa), (b, mkUser nb wb), (c, mkUser nc wc),
      (d, mkUser nd wd)]).lookup c = some (mkUser nc wc) := by
    rw [lookup_cons_ne c a (mkUser na wa) _ (Ne.symm hac),
      lookup_cons_ne c b (mkUser nb wb) _ (Ne.symm hbc), lookup_cons_self]
  have lkd : ([(a, mkUser na wa), (b, mkUser nb wb), (c, mkUser nc wc),
      (d, mkUser nd wd)]).lookup d = some (mkUser nd wd) := by
    rw [lookup_cons_ne d a (mkUser na wa) _ (Ne.symm had),
      lookup_cons_ne d b (mkUser nb wb) _ (Ne.symm hbd),
      lookup_cons_ne d c (mkUser nc wc) _ (Ne.symm hcd), lookup_cons_self]
  have lkup2 : ∀ (x : String) (ux : UserRec),
      ([(a, mkUser na wa), (b, mkUser nb wb), (c, mkUser nc wc),
        (d, mkUser nd wd)]).lookup x = some ux → x ≠ a → x ≠ b →
      (setUser (setUser [(a, mkUser na wa), (b, mkUser nb wb),
          (c, mkUser nc wc), (d, mkUser nd wd)] a
          { username := na, ws := wa, game_id := some g1, color := some "white" })
        b { username := nb, ws := wb, game_id := some g1,
            color := some "black" }).lookup x = some ux := by
    intro x ux hx hxa hxb
    rw [lookup_setUser, if_neg hxb, lookup_setUser, if_neg hxa]
    exact hx
  have h1 : find_match R g1 t1 connOf
      (freshState [(a, mkUser na wa), (b, mkUser nb wb), (c, mkUser nc wc),
        (d, mkUser nd wd)]) a =
      (⟨[a], [(a, mkUser na wa), (b, mkUser nb wb), (c, mkUser nc wc),
        (d, mkUser nd wd)], []⟩, false) :=
    find_match_enqueues R g1 t1 connOf _ a (mkUser na wa) lka rfl
  have h2 : find_match R g1 t2 connOf
      (⟨[a], [(a, mkUser na wa), (b, mkUser nb wb), (c, mkUser nc wc),
        (d, mkUser nd wd)], []⟩ : ServerState B) b =
      (⟨[], setUser (setUser [(a, mkUser na wa), (b, mkUser nb wb),
          (c, mkUser nc wc), (d, mkUser nd wd)] a
          { username := na, ws := wa, game_id := some g1, color := some "white" })
          b { username := nb, ws := wb, game_id := some g1,
              color := some "black" },
        [(g1, newGame na nb R.initBoard t2 g1)]⟩, true) :=
    find_match_pairs R g1 t2 connOf _ b a (mkUser nb wb) (mkUser na wa) rfl
      lka lkb (Ne.symm hab) (hsend _) (hsend _)
  have h3 : find_match R g2 t3 connOf
      (⟨[], setUser (setUser [(a, mkUser na wa), (b, mkUser nb wb),
          (c, mkUser nc wc), (d, mkUser nd wd)] a
          { username := na, ws := wa, game_id := some g1, color := some "white" })
          b { username := nb, ws := wb, game_id := some g1,
              color := some "black" },
        [(g1, newGame na nb R.initBoard t2 g1)]⟩ : ServerState B) c =
      (⟨[c], setUser (setUser [(a, mkUser na wa), (b, mkUser nb wb),
          (c, mkUser nc wc), (d, mkUser nd wd)] a
          { username := na, ws := wa, game_id := some g1, color := some "white" })
          b { username := nb, ws := wb, game_id := some g1,
              color := some "black" },
        [(g1, newGame na nb R.initBoard t2 g1)]⟩, false) :=
    find_match_enqueues R g2 t3 connOf _ c (mkUser nc wc)
      (lkup2 c (mkUser nc wc) lkc hac.symm hbc.symm) rfl
  have h4 : find_match R g2 t4 connOf
      (⟨[c], setUser (setUser [(a, mkUser na wa), (b, mkUser nb wb),
          (c, mkUser nc wc), (d, mkUser nd wd)] a
          { username := na, ws := wa, game_id := some g1, color := some "white" })
          b { username := nb, ws := wb, game_id := some g1,
              color := some "black" },
        [(g1, newGame na nb R.initBoard t2 g1)]⟩ : ServerState B) d =
      (⟨[], setUser (setUser (setUser (setUser [(a, mkUser na wa),
            (b, mkUser nb wb), (c, mkUser nc wc), (d, mkUser nd wd)] a
            { username := na, ws := wa, game_id := some g1,
              color := some "white" })
          b { username := nb, ws := wb, game_id := some g1,
              color := some "black" }) c
          { username := nc, ws := wc, game_id := some g2,
            color := some "white" }) d
          { username := nd, ws := wd, game_id := some g2,
            color := some "black" },
        [(g1, newGame na nb R.initBoard t2 g1),
         (g2, newGame nc nd R.initBoard t4 g2)]⟩, true) :=
    find_match_pairs R g2 t4 connOf _ d c (mkUser nd wd) (mkUser nc wc) rfl
      (lkup2 c (mkUser nc wc) lkc hac.symm hbc.symm)
      (lkup2 d (mkUser nd wd) lkd had.symm hbd.symm)
      (Ne.symm hcd) (hsend _) (hsend _)
  refine ⟨?_, ?_, ?_⟩ <;> simp only [h1, h2, h3, h4] <;> simp [newGame]

/-- C8 witness: the arrival order `A, B, C, D` at concrete websockets with all
sends succeeding produces exactly the sessions (`A`,`B`) then (`C`,`D`). -/
theorem claim_fifo_pairwise_matching_w :
    (find_match demoRules "gx" 4 connAllOk (find_match demoRules "gx" 3
      connAllOk (find_match demoRules "gw" 2 connAllOk (find_match demoRules
        "gw" 1 connAllOk (freshState [("A", mkUser "A" 0), ("B", mkUser "B" 1),
          ("C", mkUser "C" 2), ("D", mkUser "D" 3)]) "A").1 "B").1 "C").1
      "D").1.active_games.map
      (fun p => (p.1, p.2.white_player, p.2.black_player)) =
      [("gw", "A", "B"), ("gx", "C", "D")] := by
  have h := claim_fifo_pairwise_matching demoRules "gw" "gx" 1 2 3 4 connAllOk
    "A" "B" "C" "D" "A" "B" "C" "D" 0 1 2 3 (fun _ => rfl)
    (by decide) (by decide) (by decide) (by decide) (by decide) (by decide)
  exact h.2.1
